import Mathlib

/-!
Shallow embedding of `src/src/sagemaker/serializers.py`: the three format
encoders (`CSVSerializer`, `NumpySerializer`, `JSONSerializer`), their
dispatch on duck-typed Python inputs, and byte-level models of the external
formats they target (the `.npy` binary array container, CSV rows, JSON text).

Python values are embedded as the inductive `PyVal`; Python exceptions as
`Except PyErr`; machine integers are `Nat`/`Int` with explicit reductions
modulo powers of two where the formats fix a width.
-/

namespace Serializers

/-! ### Bytes and decimal rendering -/

/-- A byte string: the Python `bytes` type, each entry below 256. -/
abbrev Bytes := List Nat

/-- The code points of a (pure-ASCII) Lean string, as bytes. -/
def strBytes (s : String) : Bytes := s.toList.map Char.toNat

/-- Big-endian decimal digits by fuel-bounded division (kernel-reducible;
`natDigitsBE_eq` relates it to `Nat.digits`). -/
def natDigitsBEAux : Nat → Nat → List Nat
  | 0, _ => []
  | fuel + 1, n => if n = 0 then [] else natDigitsBEAux fuel (n / 10) ++ [n % 10]

/-- Decimal digits of `n`, most significant first, as digit values
(the digits of Python `repr` of a nonnegative int). -/
def natDigitsBE (n : Nat) : List Nat :=
  if n = 0 then [0] else natDigitsBEAux n n

/-- A single decimal digit value rendered as a character. -/
def digitChar : Nat → Char
  | 0 => '0' | 1 => '1' | 2 => '2' | 3 => '3' | 4 => '4'
  | 5 => '5' | 6 => '6' | 7 => '7' | 8 => '8' | _ => '9'

/-- Python `str` of a nonnegative integer. -/
def natStr (n : Nat) : String := String.mk ((natDigitsBE n).map digitChar)

/-- Python `str` of an integer (minus sign and decimal digits). -/
def intStr (i : Int) : String :=
  if i < 0 then "-" ++ natStr i.natAbs else natStr i.natAbs

/-- Decimal digits of `n` as ASCII bytes, most significant first. -/
def natBytes (n : Nat) : Bytes := (natDigitsBE n).map (48 + ·)

/-- `sep.join(parts)`: the parts joined with the separator between
consecutive parts (and nothing else). -/
def joinSep (sep : String) : List String → String
  | [] => ""
  | [x] => x
  | x :: t => x ++ sep ++ joinSep sep t

/-- `n` encoded as `k` little-endian bytes (`struct.pack` of an unsigned
integer of width `k`, value taken modulo `256 ^ k`). -/
def leBytes : Nat → Nat → Bytes
  | 0, _ => []
  | k + 1, n => n % 256 :: leBytes k (n / 256)

/-- Little-endian bytes decoded back to a natural number. -/
def bytesToNatLE (bs : Bytes) : Nat := bs.foldr (fun b acc => b + 256 * acc) 0

/-- Two's-complement reading of a `bits`-wide bit pattern. -/
def toSigned (bits : Nat) (p : Nat) : Int :=
  if p < 2 ^ (bits - 1) then (p : Int) else (p : Int) - 2 ^ bits

/-- Two's-complement `bits`-wide bit pattern of an integer. -/
def toPattern (bits : Nat) (i : Int) : Nat := (i % 2 ^ bits).toNat

/-! ### NumPy arrays -/

/-- A NumPy element type (the dtypes exercised by the serializers). -/
inductive Dtype where
  | int8
  | int32
  | int64
  | float64
  deriving DecidableEq, Repr

/-- `dtype.itemsize`: bytes per element. -/
def Dtype.itemsize : Dtype → Nat
  | .int8 => 1
  | .int32 => 4
  | .int64 => 8
  | .float64 => 8

/-- `numpy.lib.format.dtype_to_descr`: the dtype descriptor written into an
`.npy` header (little-endian platform). -/
def Dtype.descr : Dtype → String
  | .int8 => "|i1"
  | .int32 => "<i4"
  | .int64 => "<i8"
  | .float64 => "<f8"

/-- A native multi-dimensional array: dtype, shape, and the flat C-order
element data.  Each element is stored as its raw little-endian bit pattern
(for the integer dtypes, the two's-complement pattern of the value; this
makes the byte-level `.npy` round trip dtype-agnostic). -/
structure NDArr where
  dtype : Dtype
  shape : List Nat
  data : List Nat
  deriving DecidableEq, Repr

/-- `a.size` in NumPy: the product of the dimensions. -/
def NDArr.size (a : NDArr) : Nat := a.shape.prod

/-- The invariants NumPy maintains for every ndarray: flat data matches the
shape, at most 32 dimensions (`NPY_MAXDIMS`), each dimension fits a signed
64-bit `intp`, and each element pattern fits the dtype width. -/
def NDArr.WF (a : NDArr) : Prop :=
  a.data.length = a.shape.prod ∧
  a.shape.length ≤ 32 ∧
  (∀ d ∈ a.shape, d < 2 ^ 63) ∧
  (∀ v ∈ a.data, v < 256 ^ a.dtype.itemsize)

instance (a : NDArr) : Decidable a.WF := by
  unfold NDArr.WF
  infer_instance

/-- `numpy.ndarray.flatten`: the one-dimensional C-order copy. -/
def NDArr.flatten (a : NDArr) : NDArr :=
  { dtype := a.dtype, shape := [a.shape.prod], data := a.data }

/-! ### Python values -/

/-- The universe of Python inputs the serializers dispatch on: streams
(objects exposing `read`), strings, ints, lists, tuples, NumPy arrays,
NumPy scalars (what indexing a 1-d array yields), and string-keyed dicts. -/
inductive PyVal where
  | stream (content : Bytes)
  | str (s : String)
  | int (i : Int)
  | list (xs : List PyVal)
  | tuple (xs : List PyVal)
  | ndarray (a : NDArr)
  | npscalar (dtype : Dtype) (pattern : Nat)
  | dict (entries : List (String × PyVal))

/-- A Python exception, by class and message. -/
inductive PyErr where
  | valueError (msg : String)
  | typeError (msg : String)
  | keyError (key : String)
  | indexError (msg : String)
  | overflowError (msg : String)
  deriving DecidableEq, Repr

/-- A serializer result: Python `str` or Python `bytes`. -/
inductive Payload where
  | text (s : String)
  | raw (b : Bytes)
  deriving DecidableEq, Repr

instance {e a : Type} [DecidableEq e] [DecidableEq a] : DecidableEq (Except e a) := fun x y =>
  match x, y with
  | .error e1, .error e2 => decidable_of_iff (e1 = e2) (by simp)
  | .ok a1, .ok a2 => decidable_of_iff (a1 = a2) (by simp)
  | .error _, .ok _ => isFalse (by simp)
  | .ok _, .error _ => isFalse (by simp)

/-- `type(x).__name__` for the embedded values. -/
def typeName : PyVal → String
  | .stream _ => "BytesIO"
  | .str _ => "str"
  | .int _ => "int"
  | .list _ => "list"
  | .tuple _ => "tuple"
  | .ndarray _ => "ndarray"
  | .npscalar .int8 _ => "int8"
  | .npscalar .int32 _ => "int32"
  | .npscalar .int64 _ => "int64"
  | .npscalar .float64 _ => "float64"
  | .dict _ => "dict"

/-! ### hasattr-style capability probes

Each mirrors Python `hasattr(x, "...")` on the embedded classes: files and
buffers expose `read` and `__iter__` (line iteration) but no length or
subscripts; `str` and `tuple` are immutable sequences; `list`, `ndarray`
and `dict` additionally support `__setitem__`; ints and NumPy scalars
support none of these. -/

/-- `hasattr(x, "read")`. -/
def hasRead : PyVal → Bool
  | .stream _ => true
  | _ => false

/-- `hasattr(x, "__iter__")`. -/
def hasIter : PyVal → Bool
  | .stream _ | .str _ | .list _ | .tuple _ | .ndarray _ | .dict _ => true
  | _ => false

/-- `hasattr(x, "__getitem__")`. -/
def hasGetitem : PyVal → Bool
  | .str _ | .list _ | .tuple _ | .ndarray _ | .dict _ => true
  | _ => false

/-- `hasattr(x, "__setitem__")`. -/
def hasSetitem : PyVal → Bool
  | .list _ | .ndarray _ | .dict _ => true
  | _ => false

/-- `hasattr(x, "__len__")`. -/
def hasLen : PyVal → Bool
  | .str _ | .list _ | .tuple _ | .ndarray _ | .dict _ => true
  | _ => false

/-- Python `len(x)`: a `TypeError` for objects with no `__len__`, and for
0-d arrays (`len() of unsized object`). -/
def pyLen : PyVal → Except PyErr Nat
  | .str s => .ok s.length
  | .list xs => .ok xs.length
  | .tuple xs => .ok xs.length
  | .dict l => .ok l.length
  | .ndarray a =>
    match a.shape with
    | [] => .error (.typeError "len() of unsized object")
    | h :: _ => .ok h
  | v => .error (.typeError ("object of type " ++ typeName v ++ " has no len()"))

/-- Python `x[0]` on the embedded values: first character of a string (as a
string), head of a list or tuple, leading subarray or scalar of an ndarray,
`KeyError` on a string-keyed dict, `TypeError` on non-subscriptables. -/
def getItem0 : PyVal → Except PyErr PyVal
  | .str s =>
    match s.toList with
    | [] => .error (.indexError "string index out of range")
    | c :: _ => .ok (.str (String.mk [c]))
  | .list xs =>
    match xs with
    | [] => .error (.indexError "list index out of range")
    | x :: _ => .ok x
  | .tuple xs =>
    match xs with
    | [] => .error (.indexError "tuple index out of range")
    | x :: _ => .ok x
  | .ndarray a =>
    match a.shape with
    | [] => .error (.indexError "too many indices for array")
    | [n] =>
      if n = 0 then .error (.indexError "index 0 is out of bounds for axis 0 with size 0")
      else .ok (.npscalar a.dtype (a.data.headD 0))
    | h :: t =>
      if h = 0 then .error (.indexError "index 0 is out of bounds for axis 0 with size 0")
      else .ok (.ndarray { dtype := a.dtype, shape := t, data := a.data.take t.prod })
  | .dict _ => .error (.keyError "0")
  | v => .error (.typeError (typeName v ++ " object is not subscriptable"))

/-- Python iteration `[x for x in v]`: list/tuple elements, characters of a
string, keys of a dict, subarrays (or NumPy scalars) along axis 0 of an
ndarray.  Stream line-iteration is never reached by the serializers (they
return on `read` first) and is not modelled. -/
def pyIterElems : PyVal → Except PyErr (List PyVal)
  | .list xs => .ok xs
  | .tuple xs => .ok xs
  | .str s => .ok (s.toList.map fun c => .str (String.mk [c]))
  | .dict l => .ok (l.map fun kv => .str kv.1)
  | .ndarray a =>
    match a.shape with
    | [] => .error (.typeError "iteration over a 0-d array")
    | [_] => .ok (a.data.map (PyVal.npscalar a.dtype))
    | h :: t =>
      .ok ((List.range h).map fun i =>
        .ndarray { dtype := a.dtype, shape := t, data := (a.data.drop (i * t.prod)).take t.prod })
  | .stream _ => .error (.typeError "stream iteration not modelled")
  | v => .error (.typeError (typeName v ++ " object is not iterable"))

/-! ### Python `str`/`repr` (as far as the CSV writer needs them)

`csv.writer.writerow` converts non-string fields with `str()`.  The cases a
claim ever evaluates are ints, strings and NumPy integer scalars; container
`repr` is modelled structurally (without Python string-escape handling) and
the `str` of floats, arrays and streams — none of which any verified
statement inspects — is left as a fixed placeholder. -/

/-- A single-quote character as a string (`chr(39)`). -/
def sqs : String := String.mk [Char.ofNat 39]

/-- `str` of a NumPy scalar: the decimal of the two's-complement value for
integer dtypes (float formatting is not modelled). -/
def scalarStr (dt : Dtype) (p : Nat) : String :=
  match dt with
  | .float64 => natStr p
  | dt => intStr (toSigned (8 * dt.itemsize) p)

mutual

/-- Python `repr(x)` on the embedded values (see the section comment). -/
def pyReprOf : PyVal → String
  | .str s => sqs ++ s ++ sqs
  | .int i => intStr i
  | .npscalar dt p => scalarStr dt p
  | .list xs => "[" ++ joinSep ", " (pyReprList xs) ++ "]"
  | .tuple xs =>
    match xs with
    | [x] => "(" ++ pyReprOf x ++ ",)"
    | xs => "(" ++ joinSep ", " (pyReprList xs) ++ ")"
  | .dict l => "\x7b" ++ joinSep ", " (pyReprEntries l) ++ "\x7d"
  | .ndarray _ => "<ndarray>"
  | .stream _ => "<stream>"

def pyReprList : List PyVal → List String
  | [] => []
  | x :: t => pyReprOf x :: pyReprList t

def pyReprEntries : List (String × PyVal) → List String
  | [] => []
  | (k, v) :: t => (sqs ++ k ++ sqs ++ ": " ++ pyReprOf v) :: pyReprEntries t

end

/-- Python `str(x)`: identity on strings, `repr`-like elsewhere. -/
def pyStrOf : PyVal → String
  | .str s => s
  | v => pyReprOf v

/-! ### The CSV writer (`csv.writer` with the default excel dialect) -/

/-- Characters that force QUOTE_MINIMAL quoting: the delimiter, the quote
character and the line terminator characters. -/
def csvSpecial (c : Char) : Bool :=
  c == ',' || c == '"' || c == '\r' || c == '\n'

/-- A field as the csv module writes it: quoted, with inner quotes doubled,
exactly when it contains a special character. -/
def csvQuoteField (s : String) : String :=
  if s.toList.any csvSpecial then
    "\"" ++ String.mk (s.toList.flatMap fun c => if c == '"' then ['"', '"'] else [c]) ++ "\""
  else s

/-- One cell of `writerow`: `str()` conversion then minimal quoting. -/
def csvCell (v : PyVal) : String := csvQuoteField (pyStrOf v)

/-- `str.rstrip("\r\n")`: drop every trailing CR or LF character. -/
def rstripCRLF (s : String) : String :=
  String.mk (s.toList.reverse.dropWhile (fun c => c == '\r' || c == '\n')).reverse

namespace CSVSerializer

/-- `CSVSerializer.CONTENT_TYPE` (a class attribute: it takes no input). -/
def CONTENT_TYPE : String := "text/csv"

/-- `CSVSerializer._is_sequence_like`: iterable and subscriptable. -/
def is_sequence_like (data : PyVal) : Bool := hasIter data && hasGetitem data

/-- The tail of `_serialize_row` after the string check and the ndarray
flattening: reject a length of zero, else write one CSV record into the
buffer and strip the `"\r\n"` the writer appended; without a length, raise
the unable-to-handle `ValueError` naming the type. -/
def writerow_strip (d : PyVal) : Except PyErr String :=
  if hasLen d then do
    let n ← pyLen d
    if n = 0 then .error (.valueError "Cannot serialize empty array")
    else do
      let elems ← pyIterElems d
      .ok (rstripCRLF (joinSep "," (elems.map csvCell) ++ "\r\n"))
  else .error (.valueError ("Unable to handle input format: " ++ typeName d))

/-- `CSVSerializer._serialize_row`: strings pass through verbatim; ndarrays
are flattened first; then `writerow_strip`. -/
def serialize_row (data : PyVal) : Except PyErr String :=
  match data with
  | .str s => .ok s
  | .ndarray a => writerow_strip (.ndarray a.flatten)
  | v => writerow_strip v

/-- The content a stream yields on `read()`. -/
def readAll : PyVal → Bytes
  | .stream bs => bs
  | _ => []

/-- `CSVSerializer.serialize`: streams pass through; otherwise the
multi-row classification runs (note that `len(data)` and — when the length
is positive — `data[0]` are evaluated unconditionally, so their exceptions
escape before any row is serialized), then either each row is serialized
and the rows joined with `"\n"`, or the input is serialized as one row. -/
def serialize (data : PyVal) : Except PyErr Payload :=
  if hasRead data then .ok (.raw (readAll data))
  else
    let imsl := is_sequence_like data && hasSetitem data
    do
      let n ← pyLen data
      let hmr ← if n > 0 then do
          let e0 ← getItem0 data
          pure (is_sequence_like e0)
        else pure false
      if imsl && hmr then do
        let rows ← pyIterElems data
        let encs ← rows.mapM serialize_row
        .ok (.text (joinSep "\n" encs))
      else do
        let s ← serialize_row data
        .ok (.text s)

end CSVSerializer

/-! ### The `.npy` writer (`np.save` into a `BytesIO`)

Modelled from `numpy.lib.format.write_array` (format versions (1,0) and
(2,0)): the magic string, the version bytes, a little-endian header-length
field, the dict-literal header (keys in sorted order, C memory order,
padded with spaces to 64-byte alignment and terminated by a newline), then
the raw element data in C order. -/

/-- A single-quote byte (`chr(39)`), as the header text uses it. -/
def sqb : Bytes := [39]

/-- The `.npy` magic string `b"\x93NUMPY"`. -/
def npyMagic : Bytes := [147, 78, 85, 77, 80, 89]

/-- Python `repr` of a shape tuple: `()`, `(n,)` or `(n, m, ...)`. -/
def shapeReprBytes : List Nat → Bytes
  | [] => strBytes "()"
  | [n] => strBytes "(" ++ natBytes n ++ strBytes ",)"
  | n :: t =>
    strBytes "(" ++ natBytes n ++
      t.flatMap (fun d => strBytes ", " ++ natBytes d) ++ strBytes ")"

/-- The fixed header text from the opening brace up to the descr value. -/
def npyHdrPre1 : Bytes :=
  strBytes "\x7b" ++ sqb ++ strBytes "descr" ++ sqb ++ strBytes ": " ++ sqb

/-- The fixed header text between the descr value and the shape tuple. -/
def npyHdrPre2 : Bytes :=
  strBytes ", " ++ sqb ++ strBytes "fortran_order" ++ sqb ++ strBytes ": False, " ++
    sqb ++ strBytes "shape" ++ sqb ++ strBytes ": "

/-- The fixed header text after the shape tuple. -/
def npyHdrSuf : Bytes := strBytes ", \x7d"

/-- The header dict literal
`{'descr': DESCR, 'fortran_order': False, 'shape': SHAPE, }`. -/
def headerBytes (a : NDArr) : Bytes :=
  npyHdrPre1 ++ strBytes a.dtype.descr ++ sqb ++ npyHdrPre2 ++
    shapeReprBytes a.shape ++ npyHdrSuf

/-- `numpy.lib.format._wrap_header` with version guessing: pad to 64-byte
alignment (counting the magic, version and length fields and the final
newline); use version (1,0) with a 2-byte length field when the padded
header fits, else version (2,0) with a 4-byte field. -/
def npyWrapHeader (H : Bytes) : Bytes :=
  let hlen := H.length + 1
  let pad1 := 64 - (10 + hlen) % 64
  if hlen + pad1 ≤ 65535 then
    npyMagic ++ [1, 0] ++ leBytes 2 (hlen + pad1) ++ H ++ List.replicate pad1 32 ++ [10]
  else
    let pad2 := 64 - (12 + hlen) % 64
    npyMagic ++ [2, 0] ++ leBytes 4 (hlen + pad2) ++ H ++ List.replicate pad2 32 ++ [10]

/-- `np.save(buffer, a); buffer.getvalue()`: wrapped header then the raw
little-endian element bytes in C order. -/
def npySave (a : NDArr) : Bytes :=
  npyWrapHeader (headerBytes a) ++ a.data.flatMap (leBytes a.dtype.itemsize)

/-! ### `np.array` construction (the serializer's list and fallback paths) -/

/-- Element extraction for `np.array` on flat int sequences; other element
classes are outside what any claim exercises and are not modelled. -/
def asInt : PyVal → Except PyErr Int
  | .int i => .ok i
  | v => .error (.typeError ("int conversion not modelled for " ++ typeName v))

/-- Conversion of a Python int to a dtype's bit pattern: two's complement
within range, `OverflowError` outside it (float casting not modelled). -/
def intPattern (dt : Dtype) (i : Int) : Except PyErr Nat :=
  match dt with
  | .float64 => .error (.typeError "float conversion not modelled")
  | dt =>
    if -(2 ^ (8 * dt.itemsize - 1) : Int) ≤ i ∧ i < 2 ^ (8 * dt.itemsize - 1) then
      .ok (toPattern (8 * dt.itemsize) i)
    else .error (.overflowError "Python int too large to convert")

/-- Modelled from numpy `np.array(x, dtype)` on the inputs the serializers
reach it with: an int scalar gives a 0-d array (dtype defaulting to int64),
an empty list or tuple gives the empty float64 array of shape `(0,)`, a flat
int sequence gives a 1-d array.  Deeper shape inference is not modelled. -/
def npArray (data : PyVal) (dtype : Option Dtype) : Except PyErr NDArr :=
  match data with
  | .int i => do
    let dt := dtype.getD .int64
    let p ← intPattern dt i
    .ok { dtype := dt, shape := [], data := [p] }
  | .list xs | .tuple xs =>
    match xs with
    | [] => .ok { dtype := dtype.getD .float64, shape := [0], data := [] }
    | xs => do
      let dt := dtype.getD .int64
      let ints ← xs.mapM asInt
      let pats ← ints.mapM (intPattern dt)
      .ok { dtype := dt, shape := [xs.length], data := pats }
  | v => .error (.typeError ("np.array conversion not modelled for " ++ typeName v))

/-! ### The `.npy` reader (the standard binary-array-format reader)

A byte-level parser for the container `np.save` writes, following
`numpy.lib.format.read_magic` / `_read_array_header` / `read_array`: check
the magic, read the version-dependent little-endian header length, decode
the header dict (descr, C order, shape tuple), then read
`prod(shape) * itemsize` bytes of element data.  Fortran-order containers
(which the writer never emits) are not reconstructed. -/

/-- Strip an expected literal prefix. -/
def expectBytes (pat : Bytes) : Bytes → Option Bytes
  | bs => if bs.take pat.length = pat then some (bs.drop pat.length) else none

/-- Split at the first occurrence of the byte `stop` (consumed). -/
def readUntil (stop : Nat) : Bytes → Option (Bytes × Bytes)
  | [] => none
  | b :: rest =>
    if b = stop then some ([], rest)
    else do
      let (pre, post) ← readUntil stop rest
      some (b :: pre, post)

/-- The dtype a descr string denotes (the dtypes modelled here). -/
def dtypeOfDescr (bs : Bytes) : Option Dtype :=
  if bs = strBytes "|i1" then some .int8
  else if bs = strBytes "<i4" then some .int32
  else if bs = strBytes "<i8" then some .int64
  else if bs = strBytes "<f8" then some .float64
  else none

/-- A maximal run of decimal digits, accumulated left to right. -/
def parseDigits (acc : Nat) : Bytes → Nat × Bytes
  | [] => (acc, [])
  | b :: rest =>
    if 48 ≤ b ∧ b ≤ 57 then parseDigits (acc * 10 + (b - 48)) rest
    else (acc, b :: rest)

/-- After the first dimension of a shape tuple: `)`, `,)`, or `, d ...`. -/
def parseDimsRest (fuel : Nat) (bs : Bytes) : Option (List Nat × Bytes) :=
  match fuel with
  | 0 => none
  | fuel + 1 =>
    match bs with
    | 41 :: rest => some ([], rest)
    | 44 :: 41 :: rest => some ([], rest)
    | 44 :: 32 :: rest =>
      let (d, rest2) := parseDigits 0 rest
      do
        let (ds, rest3) ← parseDimsRest fuel rest2
        some (d :: ds, rest3)
    | _ => none

/-- A Python shape-tuple literal: `()`, `(n,)` or `(n, m, ...)`. -/
def parseShape (bs : Bytes) : Option (List Nat × Bytes) :=
  match bs with
  | 40 :: 41 :: rest => some ([], rest)
  | 40 :: rest =>
    let (d, rest2) := parseDigits 0 rest
    do
      let (ds, rest3) ← parseDimsRest (rest2.length + 1) rest2
      some (d :: ds, rest3)
  | _ => none

/-- Read the little-endian header-length field of width `w`. -/
def readLenField (w : Nat) (bs : Bytes) : Option (Nat × Bytes) :=
  if w ≤ bs.length then some (bytesToNatLE (bs.take w), bs.drop w) else none

/-- Decode the header dict literal: descr, the C-order flag (the writer
never emits Fortran order, which is therefore not reconstructed), and the
shape tuple; trailing padding is ignored as `ast.literal_eval` would. -/
def npyParseHeader (header : Bytes) : Option (Dtype × List Nat) := do
  let h1 ← expectBytes npyHdrPre1 header
  let (descrB, h2) ← readUntil 39 h1
  let dt ← dtypeOfDescr descrB
  let h3 ← expectBytes npyHdrPre2 h2
  let (shape, h4) ← parseShape h3
  let _ ← expectBytes npyHdrSuf h4
  some (dt, shape)

/-- `np.load` on an in-memory `.npy` byte string (see the section comment). -/
def npyLoad (bs : Bytes) : Option NDArr := do
  let r1 ← expectBytes npyMagic bs
  let (hlen, r2) ←
    match r1 with
    | 1 :: 0 :: rest => readLenField 2 rest
    | 2 :: 0 :: rest => readLenField 4 rest
    | 3 :: 0 :: rest => readLenField 4 rest
    | _ => none
  if hlen ≤ r2.length then do
    let (dt, shape) ← npyParseHeader (r2.take hlen)
    let rest := r2.drop hlen
    if shape.prod * dt.itemsize ≤ rest.length then
      some { dtype := dt, shape := shape,
             data := (List.range shape.prod).map fun i =>
               bytesToNatLE ((rest.drop (i * dt.itemsize)).take dt.itemsize) }
    else none
  else none

/-- `NumpySerializer` carries only the optional dtype hint set at
construction. -/
structure NumpySerializer where
  dtype : Option Dtype := none

namespace NumpySerializer

/-- `NumpySerializer.CONTENT_TYPE` (a class attribute: it takes no input). -/
def CONTENT_TYPE : String := "application/x-npy"

/-- `NumpySerializer._serialize_array`: `np.save` into a fresh buffer. -/
def serialize_array (a : NDArr) : Bytes := npySave a

/-- `NumpySerializer.serialize`: ndarrays and lists are rejected when empty
and otherwise encoded (lists through `np.array` with the dtype hint);
streams pass through; any other input goes through `np.array` with no
dtype hint and no emptiness check. -/
def serialize (self : NumpySerializer) (data : PyVal) : Except PyErr Payload :=
  match data with
  | .ndarray a =>
    if a.size = 0 then .error (.valueError "Cannot serialize empty array.")
    else .ok (.raw (serialize_array a))
  | .list xs =>
    if xs.length = 0 then .error (.valueError "Cannot serialize empty array.")
    else do
      let a ← npArray (.list xs) self.dtype
      .ok (.raw (serialize_array a))
  | .stream bs => .ok (.raw bs)
  | data => do
    let a ← npArray data none
    .ok (.raw (serialize_array a))

end NumpySerializer

/-! ### JSON encoding (`json.dumps` with default options) -/

/-- A lowercase hex digit. -/
def hexChar : Nat → Char
  | 0 => '0' | 1 => '1' | 2 => '2' | 3 => '3' | 4 => '4'
  | 5 => '5' | 6 => '6' | 7 => '7' | 8 => '8' | 9 => '9'
  | 10 => 'a' | 11 => 'b' | 12 => 'c' | 13 => 'd' | 14 => 'e' | _ => 'f'

/-- Four lowercase hex digits. -/
def hex4 (n : Nat) : String :=
  String.mk [hexChar (n / 4096 % 16), hexChar (n / 256 % 16), hexChar (n / 16 % 16), hexChar (n % 16)]

/-- The default (ensure_ascii) escaping of one character inside a JSON
string: shorthand escapes, `\u` escapes for other control or non-ASCII
characters (surrogate pairs above the BMP), everything else verbatim. -/
def jsonEscapeChar (c : Char) : String :=
  if c == '"' then "\\\""
  else if c == '\\' then "\\\\"
  else if c == '\n' then "\\n"
  else if c == '\r' then "\\r"
  else if c == '\t' then "\\t"
  else if c.toNat == 8 then "\\b"
  else if c.toNat == 12 then "\\f"
  else if c.toNat < 32 then "\\u" ++ hex4 c.toNat
  else if c.toNat < 127 then String.mk [c]
  else if c.toNat < 65536 then "\\u" ++ hex4 c.toNat
  else
    let v := c.toNat - 65536
    "\\u" ++ hex4 (55296 + v / 1024) ++ "\\u" ++ hex4 (56320 + v % 1024)

/-- A JSON string literal for `s`. -/
def jsonQuote (s : String) : String :=
  "\"" ++ joinSep "" (s.toList.map jsonEscapeChar) ++ "\""

mutual

/-- `json.dumps` (default separators) on the embedded values: ints, strings,
lists/tuples (tuples encode as arrays) and string-keyed dicts; every other
class — in particular `ndarray` — raises the not-serializable `TypeError`.
(`npscalar` stands in for NumPy scalars, which json rejects; the Python
floats a float64 `tolist` would yield are not modelled further.) -/
def jsonDumpVal : PyVal → Except PyErr String
  | .int i => .ok (intStr i)
  | .str s => .ok (jsonQuote s)
  | .list xs => do
    let parts ← jsonDumpList xs
    .ok ("[" ++ joinSep ", " parts ++ "]")
  | .tuple xs => do
    let parts ← jsonDumpList xs
    .ok ("[" ++ joinSep ", " parts ++ "]")
  | .dict l => do
    let parts ← jsonDumpEntries l
    .ok ("\x7b" ++ joinSep ", " parts ++ "\x7d")
  | v => .error (.typeError ("Object of type " ++ typeName v ++ " is not JSON serializable"))

def jsonDumpList : List PyVal → Except PyErr (List String)
  | [] => .ok []
  | x :: t => do
    let s ← jsonDumpVal x
    let rest ← jsonDumpList t
    .ok (s :: rest)

def jsonDumpEntries : List (String × PyVal) → Except PyErr (List String)
  | [] => .ok []
  | (k, v) :: t => do
    let s ← jsonDumpVal v
    let rest ← jsonDumpEntries t
    .ok ((jsonQuote k ++ ": " ++ s) :: rest)

end

mutual

/-- Whether a native array occurs anywhere inside a value (the value itself,
or nested through lists, tuples and dict values). -/
def containsArr : PyVal → Bool
  | .ndarray _ => true
  | .list xs => containsArrList xs
  | .tuple xs => containsArrList xs
  | .dict l => containsArrEntries l
  | _ => false

def containsArrList : List PyVal → Bool
  | [] => false
  | x :: t => containsArr x || containsArrList t

def containsArrEntries : List (String × PyVal) → Bool
  | [] => false
  | (_, v) :: t => containsArr v || containsArrEntries t

end

/-- An element of `ndarray.tolist`: a Python int for the integer dtypes
(float64 elements stay as scalar placeholders, see `jsonDumpVal`). -/
def scalarVal (dt : Dtype) (p : Nat) : PyVal :=
  match dt with
  | .float64 => .npscalar .float64 p
  | dt => .int (toSigned (8 * dt.itemsize) p)

/-- `ndarray.tolist` by shape: a scalar for 0-d arrays, else nested lists. -/
def tolistAux (dt : Dtype) : List Nat → List Nat → PyVal
  | [], data => scalarVal dt (data.headD 0)
  | [_], data => .list (data.map (scalarVal dt))
  | h :: t, data =>
    .list ((List.range h).map fun i =>
      tolistAux dt t ((data.drop (i * t.prod)).take t.prod))

/-- `a.tolist()`. -/
def NDArr.tolist (a : NDArr) : PyVal := tolistAux a.dtype a.shape a.data

/-- The per-value conversion `JSONSerializer.serialize` applies to the
direct values of a dict: `value.tolist() if isinstance(value, np.ndarray)
else value`. -/
def jsonConvertValue : PyVal → PyVal
  | .ndarray a => a.tolist
  | v => v

namespace JSONSerializer

/-- `JSONSerializer.CONTENT_TYPE` (a class attribute: it takes no input). -/
def CONTENT_TYPE : String := "application/json"

/-- `JSONSerializer.serialize`: a dict is re-built with each direct ndarray
value replaced by its `tolist` and then dumped; streams pass through; a
bare ndarray is dumped as its `tolist`; everything else is dumped as is. -/
def serialize (data : PyVal) : Except PyErr Payload :=
  match data with
  | .dict l => do
    let s ← jsonDumpVal (.dict (l.map fun kv => (kv.1, jsonConvertValue kv.2)))
    .ok (.text s)
  | .stream bs => .ok (.raw bs)
  | .ndarray a => do
    let s ← jsonDumpVal a.tolist
    .ok (.text s)
  | data => do
    let s ← jsonDumpVal data
    .ok (.text s)

end JSONSerializer

/-! ## Lemmas: bytes and decimal digits -/

theorem leBytes_length (k n : Nat) : (leBytes k n).length = k := by
  induction k generalizing n with
  | zero => rfl
  | succ k ih => simp [leBytes, ih]

theorem bytesToNatLE_cons (b : Nat) (bs : Bytes) :
    bytesToNatLE (b :: bs) = b + 256 * bytesToNatLE bs := rfl

theorem bytesToNatLE_leBytes (k n : Nat) (h : n < 256 ^ k) :
    bytesToNatLE (leBytes k n) = n := by
  induction k generalizing n with
  | zero =>
    simp only [pow_zero, Nat.lt_one_iff] at h
    simp [leBytes, bytesToNatLE, h]
  | succ k ih =>
    have h2 : n / 256 < 256 ^ k := by
      rw [Nat.div_lt_iff_lt_mul (by norm_num)]
      calc n < 256 ^ (k + 1) := h
        _ = 256 ^ k * 256 := by ring
    rw [leBytes, bytesToNatLE_cons, ih _ h2]
    omega

theorem natDigitsBEAux_eq (fuel : Nat) : ∀ n, n ≤ fuel → natDigitsBEAux fuel n = (Nat.digits 10 n).reverse := by
  induction fuel with
  | zero =>
    intro n hn
    have : n = 0 := by omega
    subst this
    simp [natDigitsBEAux, Nat.digits_zero]
  | succ fuel ih =>
    intro n hn
    rw [natDigitsBEAux]
    split
    · rename_i h0
      subst h0
      simp [Nat.digits_zero]
    · rename_i h0
      have hpos : 0 < n := by omega
      rw [Nat.digits_def' (by norm_num : 1 < 10) hpos, List.reverse_cons]
      rw [ih (n / 10) (by
        have := Nat.div_lt_self hpos (by norm_num : 1 < 10)
        omega)]

theorem natDigitsBE_eq (n : Nat) :
    natDigitsBE n = if n = 0 then [0] else (Nat.digits 10 n).reverse := by
  rw [natDigitsBE]
  split
  · rfl
  · exact natDigitsBEAux_eq n n le_rfl

theorem natDigitsBE_lt_ten (n : Nat) : ∀ d ∈ natDigitsBE n, d < 10 := by
  intro d hd
  rw [natDigitsBE_eq] at hd
  split at hd
  · simp at hd; omega
  · rw [List.mem_reverse] at hd
    exact Nat.digits_lt_base (by norm_num) hd

theorem natDigitsBE_ne_nil (n : Nat) : natDigitsBE n ≠ [] := by
  rw [natDigitsBE_eq]
  split
  · simp
  · simp only [ne_eq, List.reverse_eq_nil_iff]
    exact Nat.digits_ne_nil_iff_ne_zero.mpr (by assumption)

theorem natDigitsBE_length_le (n k : Nat) (hk : 1 ≤ k) (h : n < 10 ^ k) :
    (natDigitsBE n).length ≤ k := by
  rw [natDigitsBE_eq]
  split
  · simpa using hk
  · rw [List.length_reverse]
    have hlen := Nat.base_pow_length_digits_le 10 n (by norm_num) (by assumption)
    by_contra hgt
    push_neg at hgt
    have : 10 ^ (k + 1) ≤ 10 ^ (Nat.digits 10 n).length :=
      Nat.pow_le_pow_right (by norm_num) hgt
    have : 10 ^ (k + 1) ≤ 10 * n := le_trans this hlen
    have : 10 * n < 10 * 10 ^ k := by omega
    have := lt_of_le_of_lt (by assumption : 10 ^ (k + 1) ≤ 10 * n) this
    simp [pow_succ] at this
    omega

theorem foldl_base10 (l : List Nat) (a : Nat) :
    l.foldl (fun x d => x * 10 + d) a = a * 10 ^ l.length + Nat.ofDigits 10 l.reverse := by
  induction l generalizing a with
  | nil => simp [Nat.ofDigits]
  | cons d t ih =>
    rw [List.foldl_cons, ih, List.reverse_cons, Nat.ofDigits_append]
    simp only [Nat.ofDigits_cons, Nat.ofDigits_nil, List.length_reverse, List.length_cons]
    ring

theorem foldl_natDigitsBE (n : Nat) :
    (natDigitsBE n).foldl (fun x d => x * 10 + d) 0 = n := by
  rw [natDigitsBE_eq]
  split
  · simp [*]
  · rw [foldl_base10]
    simp [Nat.ofDigits_digits]

theorem natBytes_ne_nil (n : Nat) : natBytes n ≠ [] := by
  unfold natBytes
  simpa using natDigitsBE_ne_nil n

theorem natBytes_mem_digit (n : Nat) : ∀ b ∈ natBytes n, 48 ≤ b ∧ b ≤ 57 := by
  intro b hb
  unfold natBytes at hb
  rw [List.mem_map] at hb
  obtain ⟨d, hd, rfl⟩ := hb
  have := natDigitsBE_lt_ten n d hd
  omega

theorem natBytes_length_le (n k : Nat) (hk : 1 ≤ k) (h : n < 10 ^ k) :
    (natBytes n).length ≤ k := by
  unfold natBytes
  rw [List.length_map]
  exact natDigitsBE_length_le n k hk h

/-! ## Lemmas: the byte parsers invert the writers -/

theorem parseDigits_digits_append (ds : List Nat) (rest : Bytes)
    (hrest : ∀ b, rest.head? = some b → ¬(48 ≤ b ∧ b ≤ 57)) :
    ∀ acc, (∀ d ∈ ds, 48 ≤ d ∧ d ≤ 57) →
      parseDigits acc (ds ++ rest) = (ds.foldl (fun x d => x * 10 + (d - 48)) acc, rest) := by
  induction ds with
  | nil =>
    intro acc _
    simp only [List.nil_append, List.foldl_nil]
    cases rest with
    | nil => rfl
    | cons b t =>
      have hb := hrest b rfl
      simp [parseDigits, hb]
  | cons d t ih =>
    intro acc hds
    have hd := hds d (by simp)
    rw [List.cons_append, parseDigits, if_pos hd, List.foldl_cons]
    exact ih _ (fun x hx => hds x (by simp [hx]))

theorem parseDigits_natBytes (n : Nat) (rest : Bytes)
    (hrest : ∀ b, rest.head? = some b → ¬(48 ≤ b ∧ b ≤ 57)) :
    parseDigits 0 (natBytes n ++ rest) = (n, rest) := by
  rw [parseDigits_digits_append (natBytes n) rest hrest 0 (natBytes_mem_digit n)]
  congr 1
  rw [natBytes, List.foldl_map]
  calc (natDigitsBE n).foldl (fun x d => x * 10 + (48 + d - 48)) 0
      = (natDigitsBE n).foldl (fun x d => x * 10 + d) 0 := by
        congr 1
        funext x d
        omega
    _ = n := foldl_natDigitsBE n

theorem expectBytes_append (p r : Bytes) : expectBytes p (p ++ r) = some r := by
  simp [expectBytes, List.take_left, List.drop_left]

theorem readUntil_append (pre rest : Bytes) (h : 39 ∉ pre) :
    readUntil 39 (pre ++ 39 :: rest) = some (pre, rest) := by
  induction pre with
  | nil => simp [readUntil]
  | cons b t ih =>
    have hb : ¬(b = 39) := fun e => h (by simp [e])
    rw [List.cons_append, readUntil, if_neg hb, ih (fun hm => h (by simp [hm]))]
    rfl

theorem flatMap_leBytes_length (s : Nat) (l : List Nat) :
    (l.flatMap (leBytes s)).length = l.length * s := by
  induction l with
  | nil => simp
  | cons x t ih =>
    rw [List.flatMap_cons, List.length_append, leBytes_length, ih, List.length_cons]
    ring

theorem decode_flatMap (s : Nat) (l : List Nat) (hl : ∀ v ∈ l, v < 256 ^ s) :
    (List.range l.length).map
      (fun i => bytesToNatLE (((l.flatMap (leBytes s)).drop (i * s)).take s)) = l := by
  induction l with
  | nil => simp
  | cons x t ih =>
    have htake : ∀ (l1 l2 : Bytes), l1.length = s → (l1 ++ l2).take s = l1 := by
      intro l1 l2 h
      rw [← h]
      exact List.take_left _ _
    rw [List.length_cons, List.range_succ_eq_map, List.map_cons, List.map_map]
    congr 1
    · rw [List.flatMap_cons]
      simp only [Nat.zero_mul, List.drop_zero]
      rw [htake _ _ (leBytes_length s x)]
      exact bytesToNatLE_leBytes s x (hl x (by simp))
    · have hmc :
          List.map
            ((fun i => bytesToNatLE ((((x :: t).flatMap (leBytes s)).drop (i * s)).take s)) ∘
              Nat.succ) (List.range t.length) =
          List.map (fun i => bytesToNatLE (((t.flatMap (leBytes s)).drop (i * s)).take s))
            (List.range t.length) := by
        apply List.map_congr_left
        intro i _
        simp only [Function.comp_apply]
        rw [List.flatMap_cons]
        have h1 : Nat.succ i * s = (leBytes s x).length + i * s := by
          rw [leBytes_length, Nat.succ_mul]; ring
        rw [h1, List.drop_append]
      rw [hmc, ih (fun v hv => hl v (by simp [hv]))]

theorem flatMap_dims_length_le (l : List Nat) (hd : ∀ d ∈ l, (natBytes d).length ≤ 19) :
    (l.flatMap (fun d => strBytes ", " ++ natBytes d)).length ≤ l.length * 21 := by
  induction l with
  | nil => simp
  | cons x t ih =>
    rw [List.flatMap_cons, List.length_append, List.length_append, List.length_cons]
    have h1 := hd x (by simp)
    have h2 := ih (fun d hdm => hd d (by simp [hdm]))
    have h3 : (strBytes ", ").length = 2 := rfl
    rw [h3]
    calc 2 + (natBytes x).length + (t.flatMap (fun d => strBytes ", " ++ natBytes d)).length
        ≤ 2 + 19 + t.length * 21 := by omega
      _ ≤ (t.length + 1) * 21 := by ring_nf; omega

theorem flatMap_dims_length_ge (l : List Nat) :
    l.length ≤ (l.flatMap (fun d => strBytes ", " ++ natBytes d)).length := by
  induction l with
  | nil => simp
  | cons x t ih =>
    rw [List.flatMap_cons, List.length_append, List.length_append, List.length_cons]
    have h3 : (strBytes ", ").length = 2 := rfl
    omega

theorem natBytes_le19_of_dim (d : Nat) (hd : d < 2 ^ 63) : (natBytes d).length ≤ 19 :=
  natBytes_length_le d 19 (by norm_num) (lt_of_lt_of_le hd (by norm_num))

theorem shapeReprBytes_length_le (shape : List Nat) (h32 : shape.length ≤ 32)
    (hd : ∀ d ∈ shape, d < 2 ^ 63) :
    (shapeReprBytes shape).length ≤ 674 := by
  match shape with
  | [] =>
    have : (shapeReprBytes ([] : List Nat)).length = 2 := rfl
    omega
  | [n] =>
    have h1 := natBytes_le19_of_dim n (hd n (by simp))
    have hrepr : shapeReprBytes [n] = strBytes "(" ++ natBytes n ++ strBytes ",)" := rfl
    rw [hrepr]
    have h2 : (strBytes "(").length = 1 := rfl
    have h3 : (strBytes ",)").length = 2 := rfl
    rw [List.length_append, List.length_append, h2, h3]
    omega
  | n :: d2 :: t =>
    have hrepr : shapeReprBytes (n :: d2 :: t) =
        strBytes "(" ++ natBytes n ++
          ((d2 :: t).flatMap fun d => strBytes ", " ++ natBytes d) ++ strBytes ")" := rfl
    rw [hrepr]
    have h1 := natBytes_le19_of_dim n (hd n (by simp))
    have h2 : (strBytes "(").length = 1 := rfl
    have h3 : (strBytes ")").length = 1 := rfl
    have h4 := flatMap_dims_length_le (d2 :: t)
      (fun x hx => natBytes_le19_of_dim x (hd x (by simp [hx])))
    simp only [List.length_append, h2, h3]
    simp only [List.length_cons] at h4 h32 ⊢
    omega

theorem headerBytes_length (a : NDArr) :
    (headerBytes a).length = 53 + (shapeReprBytes a.shape).length := by
  have hdescr : (strBytes a.dtype.descr).length = 3 := by
    cases a.dtype <;> rfl
  rw [headerBytes]
  simp only [List.length_append, hdescr]
  have e0 : sqb.length = 1 := rfl
  have e1 : npyHdrPre1.length = 11 := rfl
  have e2 : npyHdrPre2.length = 35 := rfl
  have e3 : npyHdrSuf.length = 3 := rfl
  rw [e0, e1, e2, e3]
  omega

theorem dims_head_not_digit (t : List Nat) (rest : Bytes) :
    ∀ b, ((t.flatMap fun d => strBytes ", " ++ natBytes d) ++ 41 :: rest).head? = some b →
      ¬(48 ≤ b ∧ b ≤ 57) := by
  intro b hb
  cases t with
  | nil => simp at hb; omega
  | cons d t2 =>
    rw [List.flatMap_cons] at hb
    have h2 : strBytes ", " = [44, 32] := rfl
    rw [h2] at hb
    simp at hb
    omega

theorem parseDimsRest_dims (t : List Nat) :
    ∀ (fuel : Nat) (rest : Bytes), t.length + 1 ≤ fuel →
      parseDimsRest fuel ((t.flatMap fun d => strBytes ", " ++ natBytes d) ++ 41 :: rest) =
        some (t, rest) := by
  induction t with
  | nil =>
    intro fuel rest hf
    match fuel, hf with
    | fuel + 1, _ => simp [parseDimsRest]
  | cons d t2 ih =>
    intro fuel rest hf
    match fuel, hf with
    | fuel + 1, hf =>
      rw [List.flatMap_cons, List.append_assoc, List.append_assoc]
      show parseDimsRest (fuel + 1)
        (44 :: 32 :: (natBytes d ++ ((t2.flatMap fun x => strBytes ", " ++ natBytes x) ++ 41 :: rest))) = _
      have hstep : ∀ X : Bytes, parseDimsRest (fuel + 1) (44 :: 32 :: X) =
          (let (d0, rest2) := parseDigits 0 X
           do
            let (ds, rest3) ← parseDimsRest fuel rest2
            some (d0 :: ds, rest3)) := fun _ => rfl
      rw [hstep, parseDigits_natBytes d _ (dims_head_not_digit t2 rest)]
      have hfuel : t2.length + 1 ≤ fuel := by
        simp only [List.length_cons] at hf
        omega
      simp only [ih fuel rest hfuel]
      rfl

theorem parseShape_cons_digit (b : Nat) (hb : 48 ≤ b ∧ b ≤ 57) (Y : Bytes) :
    parseShape (40 :: b :: Y) =
      (let (d, rest2) := parseDigits 0 (b :: Y)
       do
        let (ds, rest3) ← parseDimsRest (rest2.length + 1) rest2
        some (d :: ds, rest3)) := by
  rw [parseShape.eq_def]
  split
  · rename_i rest h
    simp at h
    omega
  · rename_i rest h
    simp only [List.cons.injEq, true_and] at h
    rw [h]
  · rename_i hmiss
    exact (hmiss (b :: Y) rfl).elim

theorem natBytes_cons (n : Nat) : ∃ b bs, natBytes n = b :: bs ∧ (48 ≤ b ∧ b ≤ 57) := by
  cases h : natBytes n with
  | nil => exact absurd h (natBytes_ne_nil n)
  | cons b bs => exact ⟨b, bs, rfl, natBytes_mem_digit n b (by rw [h]; simp)⟩

theorem parseShape_shapeRepr (shape : List Nat) (rest : Bytes) :
    parseShape (shapeReprBytes shape ++ rest) = some (shape, rest) := by
  match shape with
  | [] =>
    show parseShape (40 :: 41 :: rest) = some ([], rest)
    rfl
  | [n] =>
    obtain ⟨b, bs, hcons, hdig⟩ := natBytes_cons n
    have hshape : shapeReprBytes [n] ++ rest = 40 :: (b :: (bs ++ 44 :: 41 :: rest)) := by
      have h0 : shapeReprBytes [n] = strBytes "(" ++ natBytes n ++ strBytes ",)" := rfl
      have e1 : strBytes "(" = [40] := rfl
      have e2 : strBytes ",)" = [44, 41] := rfl
      rw [h0, e1, e2, hcons]
      simp
    rw [hshape, parseShape_cons_digit b hdig]
    have hd2 : (b :: (bs ++ 44 :: 41 :: rest)) = natBytes n ++ (44 :: 41 :: rest) := by
      rw [hcons]
      simp
    rw [hd2, parseDigits_natBytes n _ (by intro x hx; simp at hx; omega)]
    rfl
  | n :: d2 :: t =>
    obtain ⟨b, bs, hcons, hdig⟩ := natBytes_cons n
    have h0 : shapeReprBytes (n :: d2 :: t) =
        strBytes "(" ++ natBytes n ++
          (((d2 :: t).flatMap fun d => strBytes ", " ++ natBytes d) ++ strBytes ")") := by
      have : shapeReprBytes (n :: d2 :: t) =
          strBytes "(" ++ natBytes n ++
            ((d2 :: t).flatMap fun d => strBytes ", " ++ natBytes d) ++ strBytes ")" := rfl
      rw [this, List.append_assoc]
    have e1 : strBytes "(" = [40] := rfl
    have e3 : strBytes ")" = [41] := rfl
    have hshape : shapeReprBytes (n :: d2 :: t) ++ rest =
        40 :: (b :: (bs ++ (((d2 :: t).flatMap fun d => strBytes ", " ++ natBytes d) ++ 41 :: rest))) := by
      rw [h0, e1, e3, hcons]
      simp
    rw [hshape, parseShape_cons_digit b hdig]
    have hd2 : (b :: (bs ++ (((d2 :: t).flatMap fun d => strBytes ", " ++ natBytes d) ++ 41 :: rest)))
        = natBytes n ++ (((d2 :: t).flatMap fun d => strBytes ", " ++ natBytes d) ++ 41 :: rest) := by
      rw [hcons]
      simp
    rw [hd2, parseDigits_natBytes n _ (dims_head_not_digit (d2 :: t) rest)]
    have hfuel : (d2 :: t).length + 1 ≤
        (((d2 :: t).flatMap fun d => strBytes ", " ++ natBytes d) ++ 41 :: rest).length + 1 := by
      have hge := flatMap_dims_length_ge (d2 :: t)
      simp only [List.length_append, List.length_cons] at hge ⊢
      omega
    simp only [parseDimsRest_dims (d2 :: t) _ rest hfuel]
    rfl

theorem take_append_exact (l1 l2 : Bytes) (w : Nat) (h : l1.length = w) :
    (l1 ++ l2).take w = l1 := by
  rw [← h]
  exact List.take_left _ _

theorem drop_append_exact (l1 l2 : Bytes) (w : Nat) (h : l1.length = w) :
    (l1 ++ l2).drop w = l2 := by
  rw [← h]
  exact List.drop_left _ _

theorem readLenField_exact (w n : Nat) (Y : Bytes) (h : n < 256 ^ w) :
    readLenField w (leBytes w n ++ Y) = some (n, Y) := by
  rw [readLenField]
  have hlen : (leBytes w n ++ Y).length = w + Y.length := by
    rw [List.length_append, leBytes_length]
  rw [if_pos (by omega)]
  rw [take_append_exact _ _ _ (leBytes_length w n), drop_append_exact _ _ _ (leBytes_length w n)]
  rw [bytesToNatLE_leBytes w n h]

theorem npyParseHeader_headerBytes (a : NDArr) (tail : Bytes) :
    npyParseHeader (headerBytes a ++ tail) = some (a.dtype, a.shape) := by
  have hnoq : 39 ∉ strBytes a.dtype.descr := by cases a.dtype <;> decide
  have hdescr : dtypeOfDescr (strBytes a.dtype.descr) = some a.dtype := by
    cases a.dtype <;> rfl
  have hform : headerBytes a ++ tail =
      npyHdrPre1 ++ (strBytes a.dtype.descr ++ (39 :: (npyHdrPre2 ++
        (shapeReprBytes a.shape ++ (npyHdrSuf ++ tail))))) := by
    rw [headerBytes]
    have hsqb : sqb = [39] := rfl
    rw [hsqb]
    simp [List.append_assoc]
  rw [npyParseHeader, hform, expectBytes_append]
  simp only [Option.bind_eq_bind, Option.some_bind]
  rw [readUntil_append _ _ hnoq]
  simp only [Option.bind_eq_bind, Option.some_bind]
  rw [hdescr]
  simp only [Option.bind_eq_bind, Option.some_bind]
  rw [expectBytes_append]
  simp only [Option.bind_eq_bind, Option.some_bind]
  rw [parseShape_shapeRepr]
  simp only [Option.bind_eq_bind, Option.some_bind]
  rw [expectBytes_append]
  rfl

theorem npyLoad_npySave (a : NDArr) (hwf : a.WF) : npyLoad (npySave a) = some a := by
  obtain ⟨hdata, h32, hdims, helem⟩ := hwf
  have hSR := shapeReprBytes_length_le a.shape h32 hdims
  have hHlen := headerBytes_length a
  have hcond : (headerBytes a).length + 1 +
      (64 - (10 + ((headerBytes a).length + 1)) % 64) ≤ 65535 := by omega
  have hT : (headerBytes a).length + 1 +
      (64 - (10 + ((headerBytes a).length + 1)) % 64) < 256 ^ 2 := by
    norm_num
    omega
  have hsave : npySave a =
      npyMagic ++ (1 :: 0 ::
        (leBytes 2 ((headerBytes a).length + 1 + (64 - (10 + ((headerBytes a).length + 1)) % 64)) ++
          ((headerBytes a ++
            (List.replicate (64 - (10 + ((headerBytes a).length + 1)) % 64) 32 ++ [10])) ++
            a.data.flatMap (leBytes a.dtype.itemsize)))) := by
    rw [npySave, npyWrapHeader]
    simp only []
    rw [if_pos hcond]
    simp [List.append_assoc]
  rw [hsave, npyLoad]
  rw [expectBytes_append]
  simp only [Option.bind_eq_bind, Option.some_bind]
  rw [readLenField_exact 2 _ _ hT]
  simp only [Option.some_bind]
  have hchunklen :
      (headerBytes a ++
        (List.replicate (64 - (10 + ((headerBytes a).length + 1)) % 64) 32 ++ [10])).length
      = (headerBytes a).length + 1 + (64 - (10 + ((headerBytes a).length + 1)) % 64) := by
    simp [List.length_append, List.length_replicate]
    omega
  rw [if_pos (by
    rw [List.length_append, hchunklen]
    omega)]
  rw [take_append_exact _ _ _ hchunklen, drop_append_exact _ _ _ hchunklen]
  rw [npyParseHeader_headerBytes]
  simp only [Option.some_bind]
  have hdlen : (a.data.flatMap (leBytes a.dtype.itemsize)).length
      = a.shape.prod * a.dtype.itemsize := by
    rw [flatMap_leBytes_length, hdata]
  rw [if_pos (by rw [hdlen])]
  rw [← hdata, decode_flatMap _ _ helem]

/-! ## Lemmas: the CSV row writer -/

theorem ok_bind {e a b : Type} (x : a) (f : a → Except e b) :
    (Except.ok x >>= f) = f x := rfl

theorem error_bind {e a b : Type} (err : e) (f : a → Except e b) :
    ((Except.error err : Except e a) >>= f) = Except.error err := rfl

theorem csvSpecial_digitChar (d : Nat) : csvSpecial (digitChar d) = false := by
  rcases d with _|_|_|_|_|_|_|_|_|d <;> rfl

theorem csvSpecial_intStr (i : Int) : ∀ c ∈ (intStr i).toList, csvSpecial c = false := by
  intro c hc
  have hnat : ∀ n : Nat, ∀ c ∈ (natStr n).toList, csvSpecial c = false := by
    intro n c hc
    rw [natStr] at hc
    rw [show (String.mk ((natDigitsBE n).map digitChar)).toList = (natDigitsBE n).map digitChar from rfl] at hc
    rw [List.mem_map] at hc
    obtain ⟨d, _, rfl⟩ := hc
    exact csvSpecial_digitChar d
  rw [intStr] at hc
  split at hc
  · rw [show ("-" ++ natStr i.natAbs).toList = '-' :: (natStr i.natAbs).toList from by
      simp [String.toList, String.data_append]] at hc
    rw [List.mem_cons] at hc
    rcases hc with he | hc
    · subst he; rfl
    · exact hnat _ c hc
  · exact hnat _ c hc

theorem csvQuoteField_id (s : String) (h : ∀ c ∈ s.toList, csvSpecial c = false) :
    csvQuoteField s = s := by
  have hany : s.toList.any csvSpecial = false := by
    rw [List.any_eq_false]
    intro c hc
    rw [h c hc]
    simp
  rw [csvQuoteField, hany]
  simp

theorem mem_joinSep (sep : String) (l : List String) (c : Char)
    (hc : c ∈ (joinSep sep l).toList) : c ∈ sep.toList ∨ ∃ s ∈ l, c ∈ s.toList := by
  induction l with
  | nil => simp [joinSep] at hc
  | cons x t ih =>
    cases t with
    | nil =>
      right
      exact ⟨x, by simp, hc⟩
    | cons y t2 =>
      have he : joinSep sep (x :: y :: t2) = x ++ sep ++ joinSep sep (y :: t2) := rfl
      rw [he] at hc
      rw [show (x ++ sep ++ joinSep sep (y :: t2)).toList
          = x.toList ++ (sep.toList ++ (joinSep sep (y :: t2)).toList) from by
        simp [String.toList, String.data_append]] at hc
      rw [List.mem_append, List.mem_append] at hc
      rcases hc with hc | hc | hc
      · exact Or.inr ⟨x, by simp, hc⟩
      · exact Or.inl hc
      · rcases ih hc with h1 | ⟨s, hs, hcs⟩
        · exact Or.inl h1
        · exact Or.inr ⟨s, by simp [hs], hcs⟩

theorem dropWhile_all_false {p : Char → Bool} (l : List Char)
    (h : ∀ c ∈ l, p c = false) : l.dropWhile p = l := by
  cases l with
  | nil => rfl
  | cons x t =>
    rw [List.dropWhile_cons, if_neg]
    rw [h x (by simp)]
    simp

theorem rstripCRLF_append_crlf (s : String)
    (hs : ∀ c ∈ s.toList, (c == '\r' || c == '\n') = false) :
    rstripCRLF (s ++ "\r\n") = s := by
  rw [rstripCRLF]
  rw [show (s ++ "\r\n").toList = s.toList ++ ['\r', '\n'] from by
    simp [String.toList, String.data_append]]
  rw [List.reverse_append]
  rw [show (['\r', '\n'] : List Char).reverse = ['\n', '\r'] from rfl]
  rw [show (['\n', '\r'] ++ s.toList.reverse : List Char) = '\n' :: '\r' :: s.toList.reverse from rfl]
  rw [show ('\n' :: '\r' :: s.toList.reverse : List Char).dropWhile (fun c => c == '\r' || c == '\n')
      = s.toList.reverse.dropWhile (fun c => c == '\r' || c == '\n') from by
    rw [List.dropWhile_cons, if_pos (by simp), List.dropWhile_cons, if_pos (by simp)]]
  rw [dropWhile_all_false _ (fun c hc => hs c (List.mem_reverse.mp hc))]
  rw [List.reverse_reverse]
  rfl


theorem csvSpecial_false_not_crlf (c : Char) (h : csvSpecial c = false) :
    (c == '\r' || c == '\n') = false := by
  rw [csvSpecial] at h
  have h1 := Bool.or_eq_false_iff.mp h
  have h2 := Bool.or_eq_false_iff.mp h1.1
  rw [Bool.or_eq_false_iff]
  exact ⟨h2.2, h1.2⟩

theorem csvCell_int (i : Int) : csvCell (.int i) = intStr i := by
  rw [csvCell]
  rw [show pyStrOf (.int i) = intStr i from rfl]
  exact csvQuoteField_id _ (csvSpecial_intStr i)

theorem joinSep_comma_ints_not_crlf (xs : List Int) :
    ∀ c ∈ (joinSep "," (xs.map intStr)).toList, (c == '\r' || c == '\n') = false := by
  intro c hc
  rcases mem_joinSep _ _ _ hc with hsep | ⟨s, hs, hcs⟩
  · have : c = ',' := by
      rw [show ("," : String).toList = [','] from rfl] at hsep
      simpa using hsep
    subst this
    rfl
  · rw [List.mem_map] at hs
    obtain ⟨i, _, rfl⟩ := hs
    exact csvSpecial_false_not_crlf c (csvSpecial_intStr i c hcs)

theorem writerow_strip_int_list (xs : List Int) (hne : xs ≠ []) :
    CSVSerializer.writerow_strip (.list (xs.map .int)) = .ok (joinSep "," (xs.map intStr)) := by
  rw [CSVSerializer.writerow_strip]
  rw [if_pos (by rfl)]
  rw [show pyLen (.list (xs.map .int)) = Except.ok (xs.map PyVal.int).length from rfl]
  rw [ok_bind]
  rw [if_neg (by simp [hne])]
  rw [show pyIterElems (.list (xs.map .int)) = Except.ok (xs.map PyVal.int) from rfl]
  rw [ok_bind]
  rw [List.map_map]
  rw [show (xs.map (csvCell ∘ PyVal.int)) = xs.map intStr from
    List.map_congr_left fun i _ => csvCell_int i]
  rw [rstripCRLF_append_crlf _ (joinSep_comma_ints_not_crlf xs)]


theorem csv_serialize_flat_list (xs : List Int) (hne : xs ≠ []) :
    CSVSerializer.serialize (.list (xs.map .int)) = .ok (.text (joinSep "," (xs.map intStr))) := by
  obtain ⟨x, t, rfl⟩ : ∃ x t, xs = x :: t := by
    cases xs with
    | nil => exact absurd rfl hne
    | cons x t => exact ⟨x, t, rfl⟩
  rw [CSVSerializer.serialize]
  rw [if_neg (by simp [hasRead])]
  simp only []
  rw [show pyLen (.list ((x :: t).map .int)) = Except.ok ((x :: t).map PyVal.int).length from rfl]
  rw [ok_bind]
  rw [if_pos (by simp)]
  rw [show getItem0 (.list ((x :: t).map .int)) = Except.ok (.int x) from rfl]
  rw [ok_bind]
  rw [show (pure (CSVSerializer.is_sequence_like (.int x)) : Except PyErr Bool) = Except.ok false from rfl]
  rw [ok_bind]
  rw [if_neg (by simp)]
  rw [show CSVSerializer.serialize_row (.list ((x :: t).map .int))
      = CSVSerializer.writerow_strip (.list ((x :: t).map .int)) from rfl]
  rw [writerow_strip_int_list (x :: t) hne]
  rfl


theorem writerow_strip_int_tuple (xs : List Int) (hne : xs ≠ []) :
    CSVSerializer.writerow_strip (.tuple (xs.map .int)) = .ok (joinSep "," (xs.map intStr)) := by
  rw [CSVSerializer.writerow_strip]
  rw [if_pos (by rfl)]
  rw [show pyLen (.tuple (xs.map .int)) = Except.ok (xs.map PyVal.int).length from rfl]
  rw [ok_bind]
  rw [if_neg (by simp [hne])]
  rw [show pyIterElems (.tuple (xs.map .int)) = Except.ok (xs.map PyVal.int) from rfl]
  rw [ok_bind]
  rw [List.map_map]
  rw [show (xs.map (csvCell ∘ PyVal.int)) = xs.map intStr from
    List.map_congr_left fun i _ => csvCell_int i]
  rw [rstripCRLF_append_crlf _ (joinSep_comma_ints_not_crlf xs)]

theorem csv_serialize_flat_tuple (xs : List Int) (hne : xs ≠ []) :
    CSVSerializer.serialize (.tuple (xs.map .int)) = .ok (.text (joinSep "," (xs.map intStr))) := by
  obtain ⟨x, t, rfl⟩ : ∃ x t, xs = x :: t := by
    cases xs with
    | nil => exact absurd rfl hne
    | cons x t => exact ⟨x, t, rfl⟩
  rw [CSVSerializer.serialize]
  rw [if_neg (by simp [hasRead])]
  simp only []
  rw [show pyLen (.tuple ((x :: t).map .int)) = Except.ok ((x :: t).map PyVal.int).length from rfl]
  rw [ok_bind]
  rw [if_pos (by simp)]
  rw [show getItem0 (.tuple ((x :: t).map .int)) = Except.ok (.int x) from rfl]
  rw [ok_bind]
  rw [show (pure (CSVSerializer.is_sequence_like (.int x)) : Except PyErr Bool) = Except.ok false from rfl]
  rw [ok_bind]
  rw [if_neg (by simp)]
  rw [show CSVSerializer.serialize_row (.tuple ((x :: t).map .int))
      = CSVSerializer.writerow_strip (.tuple ((x :: t).map .int)) from rfl]
  rw [writerow_strip_int_tuple (x :: t) hne]
  rfl

theorem csv_serialize_multirow (data e0 : PyVal) (n : Nat)
    (hread : hasRead data = false)
    (hset : hasSetitem data = true)
    (hget : hasGetitem data = true)
    (hit : hasIter data = true)
    (hlen : pyLen data = .ok n) (hn : 0 < n)
    (he0 : getItem0 data = .ok e0)
    (he0it : hasIter e0 = true) (he0get : hasGetitem e0 = true) :
    CSVSerializer.serialize data =
      (do
        let rows ← pyIterElems data
        let encs ← rows.mapM CSVSerializer.serialize_row
        Except.ok (.text (joinSep "\n" encs))) := by
  rw [CSVSerializer.serialize, if_neg (by simp [hread])]
  simp only []
  rw [hlen, ok_bind, if_pos hn, he0, ok_bind]
  rw [show (pure (CSVSerializer.is_sequence_like e0) : Except PyErr Bool) = Except.ok true from by
    rw [CSVSerializer.is_sequence_like, he0it, he0get]; rfl]
  rw [ok_bind]
  rw [if_pos (by rw [CSVSerializer.is_sequence_like, hit, hget, hset]; rfl)]


/-! ## Lemmas: empty collections and scalars -/

theorem writerow_strip_len_zero (d : PyVal) (h : pyLen d = .ok 0) (hl : hasLen d = true) :
    CSVSerializer.writerow_strip d = .error (.valueError "Cannot serialize empty array") := by
  rw [CSVSerializer.writerow_strip, if_pos hl, h, ok_bind, if_pos rfl]

theorem serialize_row_len_zero (d : PyVal) (hstr : ∀ s, d ≠ .str s) (h : pyLen d = .ok 0) :
    CSVSerializer.serialize_row d = .error (.valueError "Cannot serialize empty array") := by
  cases d with
  | str s => exact absurd rfl (hstr s)
  | list xs =>
    rw [show CSVSerializer.serialize_row (.list xs) = CSVSerializer.writerow_strip (.list xs) from rfl]
    exact writerow_strip_len_zero _ h rfl
  | tuple xs =>
    rw [show CSVSerializer.serialize_row (.tuple xs) = CSVSerializer.writerow_strip (.tuple xs) from rfl]
    exact writerow_strip_len_zero _ h rfl
  | dict l =>
    rw [show CSVSerializer.serialize_row (.dict l) = CSVSerializer.writerow_strip (.dict l) from rfl]
    exact writerow_strip_len_zero _ h rfl
  | ndarray a =>
    rw [show CSVSerializer.serialize_row (.ndarray a)
        = CSVSerializer.writerow_strip (.ndarray a.flatten) from rfl]
    have hsh : a.shape.prod = 0 := by
      cases hs : a.shape with
      | nil => simp [pyLen, hs] at h
      | cons h0 t =>
        rw [pyLen.eq_def] at h
        simp only [hs] at h
        simp only [Except.ok.injEq] at h
        rw [List.prod_cons, h]
        ring
    have hflat : pyLen (.ndarray a.flatten) = .ok 0 := by
      rw [NDArr.flatten, pyLen]
      simp [hsh]
    exact writerow_strip_len_zero _ hflat rfl
  | stream c => simp [pyLen] at h
  | int i => simp [pyLen] at h
  | npscalar dt p => simp [pyLen] at h


theorem csv_serialize_empty_ndarray (a : NDArr) (h : a.size = 0) :
    CSVSerializer.serialize (.ndarray a) = .error (.valueError "Cannot serialize empty array") := by
  obtain ⟨dt, shape, data⟩ := a
  rw [NDArr.size] at h
  simp only [] at h
  rw [CSVSerializer.serialize, if_neg (by simp [hasRead])]
  simp only []
  cases shape with
  | nil => simp at h
  | cons h0 t =>
    rw [show pyLen (.ndarray ⟨dt, h0 :: t, data⟩) = .ok h0 from rfl, ok_bind]
    rcases Nat.eq_zero_or_pos h0 with h00 | hpos
    · subst h00
      rw [if_neg (by simp)]
      rw [show (pure false : Except PyErr Bool) = Except.ok false from rfl, ok_bind]
      rw [if_neg (by simp)]
      rw [show CSVSerializer.serialize_row (.ndarray ⟨dt, 0 :: t, data⟩) = CSVSerializer.writerow_strip (.ndarray (NDArr.flatten ⟨dt, 0 :: t, data⟩)) from rfl]
      rw [writerow_strip_len_zero _ (by simp [NDArr.flatten, pyLen]) (by rfl)]
      rfl
    · have htp : t.prod = 0 := by
        rw [List.prod_cons] at h
        rcases Nat.mul_eq_zero.mp h with h2 | h2
        · omega
        · exact h2
      cases t with
      | nil => simp at htp
      | cons t1 t2 =>
        rw [if_pos hpos]
        rw [show getItem0 (.ndarray ⟨dt, h0 :: t1 :: t2, data⟩) = (if h0 = 0 then .error (.indexError "index 0 is out of bounds for axis 0 with size 0") else .ok (.ndarray { dtype := dt, shape := t1 :: t2, data := data.take (t1 :: t2).prod })) from rfl]
        rw [if_neg (by omega), ok_bind]
        rw [show (pure (CSVSerializer.is_sequence_like (.ndarray { dtype := dt, shape := t1 :: t2, data := data.take (t1 :: t2).prod })) : Except PyErr Bool) = Except.ok true from rfl]
        rw [ok_bind]
        have hc : (CSVSerializer.is_sequence_like (PyVal.ndarray ⟨dt, h0 :: t1 :: t2, data⟩) && hasSetitem (PyVal.ndarray ⟨dt, h0 :: t1 :: t2, data⟩) && true) = true := rfl
        rw [if_pos hc]
        rw [show pyIterElems (.ndarray ⟨dt, h0 :: t1 :: t2, data⟩) = .ok ((List.range h0).map fun i => .ndarray { dtype := dt, shape := t1 :: t2, data := (data.drop (i * (t1 :: t2).prod)).take (t1 :: t2).prod }) from rfl]
        rw [ok_bind]
        obtain ⟨k, rfl⟩ : ∃ k, h0 = k + 1 := ⟨h0 - 1, by omega⟩
        rw [List.range_succ_eq_map, List.map_cons, List.mapM_cons]
        rw [show CSVSerializer.serialize_row (.ndarray { dtype := dt, shape := t1 :: t2, data := (data.drop (0 * (t1 :: t2).prod)).take (t1 :: t2).prod }) = CSVSerializer.writerow_strip (.ndarray (NDArr.flatten { dtype := dt, shape := t1 :: t2, data := (data.drop (0 * (t1 :: t2).prod)).take (t1 :: t2).prod })) from rfl]
        rw [writerow_strip_len_zero _ (by simp [NDArr.flatten, pyLen, htp]) (by rfl)]
        rfl


/-! ## Lemmas: the binary-array serializer -/

theorem numpy_serialize_ndarray (dt : Option Dtype) (a : NDArr) (h : a.size ≠ 0) :
    NumpySerializer.serialize ⟨dt⟩ (.ndarray a) = .ok (.raw (npySave a)) := by
  rw [show NumpySerializer.serialize ⟨dt⟩ (.ndarray a)
      = (if a.size = 0 then .error (.valueError "Cannot serialize empty array.")
         else .ok (.raw (NumpySerializer.serialize_array a))) from rfl]
  rw [if_neg h]
  rfl

theorem numpy_serialize_empty_ndarray (dt : Option Dtype) (a : NDArr) (h : a.size = 0) :
    NumpySerializer.serialize ⟨dt⟩ (.ndarray a) = .error (.valueError "Cannot serialize empty array.") := by
  rw [show NumpySerializer.serialize ⟨dt⟩ (.ndarray a)
      = (if a.size = 0 then .error (.valueError "Cannot serialize empty array.")
         else .ok (.raw (NumpySerializer.serialize_array a))) from rfl]
  rw [if_pos h]

/-! ## Lemmas: the JSON encoder -/

theorem jsonDumpEntries_eq_mapM (l : List (String × PyVal)) :
    jsonDumpEntries l = l.mapM (fun kv => do
      let s ← jsonDumpVal kv.2
      pure (jsonQuote kv.1 ++ ": " ++ s)) := by
  induction l with
  | nil => rfl
  | cons kv t ih =>
    obtain ⟨k, v⟩ := kv
    rw [jsonDumpEntries, List.mapM_cons, ih]
    cases hv : jsonDumpVal v with
    | error e => rfl
    | ok s => rfl


mutual

theorem containsArr_dump_error : ∀ v : PyVal, containsArr v = true →
    ∃ e, jsonDumpVal v = Except.error e
  | .ndarray a, _ =>
    ⟨.typeError ("Object of type " ++ typeName (.ndarray a) ++ " is not JSON serializable"), rfl⟩
  | .list xs, h => by
    obtain ⟨e, he⟩ := containsArrList_dump_error xs (by rw [containsArr] at h; exact h)
    refine ⟨e, ?_⟩
    rw [show jsonDumpVal (.list xs)
        = (do
            let parts ← jsonDumpList xs
            Except.ok ("[" ++ joinSep ", " parts ++ "]")) from rfl, he]
    rfl
  | .tuple xs, h => by
    obtain ⟨e, he⟩ := containsArrList_dump_error xs (by rw [containsArr] at h; exact h)
    refine ⟨e, ?_⟩
    rw [show jsonDumpVal (.tuple xs)
        = (do
            let parts ← jsonDumpList xs
            Except.ok ("[" ++ joinSep ", " parts ++ "]")) from rfl, he]
    rfl
  | .dict l, h => by
    obtain ⟨e, he⟩ := containsArrEntries_dump_error l (by rw [containsArr] at h; exact h)
    refine ⟨e, ?_⟩
    rw [show jsonDumpVal (.dict l)
        = (do
            let parts ← jsonDumpEntries l
            Except.ok ("\x7b" ++ joinSep ", " parts ++ "\x7d")) from rfl, he]
    rfl
  | .stream c, h => by simp [containsArr] at h
  | .str s, h => by simp [containsArr] at h
  | .int i, h => by simp [containsArr] at h
  | .npscalar dt p, h => by simp [containsArr] at h

theorem containsArrList_dump_error : ∀ xs : List PyVal, containsArrList xs = true →
    ∃ e, jsonDumpList xs = Except.error e
  | [], h => by simp [containsArrList] at h
  | x :: t, h => by
    cases hx : jsonDumpVal x with
    | error e =>
      refine ⟨e, ?_⟩
      rw [show jsonDumpList (x :: t)
          = (do
              let s ← jsonDumpVal x
              let rest ← jsonDumpList t
              Except.ok (s :: rest)) from rfl, hx]
      rfl
    | ok s =>
      have hx2 : containsArr x = false := by
        by_contra hc
        rw [Bool.not_eq_false] at hc
        obtain ⟨e, he⟩ := containsArr_dump_error x hc
        rw [he] at hx
        exact absurd hx (by simp)
      rw [containsArrList, hx2, Bool.false_or] at h
      obtain ⟨e, he⟩ := containsArrList_dump_error t h
      refine ⟨e, ?_⟩
      rw [show jsonDumpList (x :: t)
          = (do
              let s ← jsonDumpVal x
              let rest ← jsonDumpList t
              Except.ok (s :: rest)) from rfl, hx, ok_bind, he]
      rfl

theorem containsArrEntries_dump_error : ∀ l : List (String × PyVal), containsArrEntries l = true →
    ∃ e, jsonDumpEntries l = Except.error e
  | [], h => by simp [containsArrEntries] at h
  | (k, v) :: t, h => by
    cases hv : jsonDumpVal v with
    | error e =>
      refine ⟨e, ?_⟩
      rw [show jsonDumpEntries ((k, v) :: t)
          = (do
              let s ← jsonDumpVal v
              let rest ← jsonDumpEntries t
              Except.ok ((jsonQuote k ++ ": " ++ s) :: rest)) from rfl, hv]
      rfl
    | ok s =>
      have hv2 : containsArr v = false := by
        by_contra hc
        rw [Bool.not_eq_false] at hc
        obtain ⟨e, he⟩ := containsArr_dump_error v hc
        rw [he] at hv
        exact absurd hv (by simp)
      rw [containsArrEntries, hv2, Bool.false_or] at h
      obtain ⟨e, he⟩ := containsArrEntries_dump_error t h
      refine ⟨e, ?_⟩
      rw [show jsonDumpEntries ((k, v) :: t)
          = (do
              let s ← jsonDumpVal v
              let rest ← jsonDumpEntries t
              Except.ok ((jsonQuote k ++ ": " ++ s) :: rest)) from rfl, hv, ok_bind, he]
      rfl

end


theorem jsonDumpEntries_error_of_mem (l : List (String × PyVal)) (k : String) (v : PyVal)
    (e : PyErr) (hm : (k, v) ∈ l) (he : jsonDumpVal v = .error e) :
    ∃ e2, jsonDumpEntries l = Except.error e2 := by
  induction l with
  | nil => simp at hm
  | cons kv t ih =>
    obtain ⟨k0, v0⟩ := kv
    cases hv0 : jsonDumpVal v0 with
    | error e0 =>
      refine ⟨e0, ?_⟩
      rw [show jsonDumpEntries ((k0, v0) :: t)
          = (do
              let s ← jsonDumpVal v0
              let rest ← jsonDumpEntries t
              Except.ok ((jsonQuote k0 ++ ": " ++ s) :: rest)) from rfl, hv0]
      rfl
    | ok s =>
      rw [List.mem_cons] at hm
      rcases hm with heq | hm2
      · have hveq : v = v0 := congrArg Prod.snd heq
        rw [hveq, hv0] at he
        exact absurd he (by simp)
      · obtain ⟨e2, he2⟩ := ih hm2
        refine ⟨e2, ?_⟩
        rw [show jsonDumpEntries ((k0, v0) :: t)
            = (do
                let s ← jsonDumpVal v0
                let rest ← jsonDumpEntries t
                Except.ok ((jsonQuote k0 ++ ": " ++ s) :: rest)) from rfl, hv0, ok_bind, he2]
        rfl

theorem json_serialize_dict_error_of_nested_array (m : List (String × PyVal))
    (k : String) (v : PyVal) (hm : (k, v) ∈ m) (harr : containsArr v = true)
    (hnd : ∀ a, v ≠ .ndarray a) :
    ∃ e, JSONSerializer.serialize (.dict m) = Except.error e := by
  have hconv : jsonConvertValue v = v := by
    cases v with
    | ndarray a => exact absurd rfl (hnd a)
    | _ => rfl
  have hmem : (k, v) ∈ m.map (fun kv => (kv.1, jsonConvertValue kv.2)) := by
    have := List.mem_map_of_mem (fun kv : String × PyVal => (kv.1, jsonConvertValue kv.2)) hm
    simpa [hconv] using this
  obtain ⟨e, he⟩ := containsArr_dump_error v harr
  obtain ⟨e2, he2⟩ := jsonDumpEntries_error_of_mem _ k v e hmem he
  refine ⟨e2, ?_⟩
  rw [show JSONSerializer.serialize (.dict m)
      = (do
          let s ← jsonDumpVal (.dict (m.map fun kv => (kv.1, jsonConvertValue kv.2)))
          Except.ok (.text s)) from rfl]
  rw [show jsonDumpVal (.dict (m.map fun kv => (kv.1, jsonConvertValue kv.2)))
      = (do
          let parts ← jsonDumpEntries (m.map fun kv => (kv.1, jsonConvertValue kv.2))
          Except.ok ("\x7b" ++ joinSep ", " parts ++ "\x7d")) from rfl]
  rw [he2]
  rfl


theorem numpy_serialize_scalar_int (dt : Option Dtype) (i : Int)
    (h1 : -(2 ^ 63) ≤ i) (h2 : i < 2 ^ 63) :
    NumpySerializer.serialize ⟨dt⟩ (.int i)
      = .ok (.raw (npySave { dtype := .int64, shape := [], data := [toPattern 64 i] })) := by
  rw [show NumpySerializer.serialize ⟨dt⟩ (.int i)
      = (do
          let a ← npArray (.int i) none
          Except.ok (.raw (NumpySerializer.serialize_array a))) from rfl]
  rw [show npArray (.int i) none
      = (do
          let p ← intPattern .int64 i
          Except.ok { dtype := Dtype.int64, shape := ([] : List Nat), data := [p] }) from rfl]
  rw [show intPattern .int64 i
      = (if -(2 ^ 63 : Int) ≤ i ∧ i < 2 ^ 63 then .ok (toPattern 64 i)
         else .error (.overflowError "Python int too large to convert")) from rfl]
  rw [if_pos ⟨h1, h2⟩, ok_bind, ok_bind]
  rfl

/-! ## The claims -/

/-- C1 (as amended): the tabular encoder rejects empty lists, tuples, dicts
and zero-size arrays with the empty-input `ValueError`, and the binary
encoder rejects empty lists and zero-size arrays; but the claim's universal
form is false: the tabular encoder returns an empty string verbatim, and
the structured-text encoder happily encodes empty collections (`[]` and
`{}`) as payloads. -/
theorem claim_C1 :
    (CSVSerializer.serialize (.list []) = .error (.valueError "Cannot serialize empty array"))
    ∧ (CSVSerializer.serialize (.tuple []) = .error (.valueError "Cannot serialize empty array"))
    ∧ (CSVSerializer.serialize (.dict []) = .error (.valueError "Cannot serialize empty array"))
    ∧ (∀ a : NDArr, a.size = 0 →
        CSVSerializer.serialize (.ndarray a) = .error (.valueError "Cannot serialize empty array"))
    ∧ (∀ dt : Option Dtype,
        NumpySerializer.serialize ⟨dt⟩ (.list []) = .error (.valueError "Cannot serialize empty array."))
    ∧ (∀ dt : Option Dtype, ∀ a : NDArr, a.size = 0 →
        NumpySerializer.serialize ⟨dt⟩ (.ndarray a) = .error (.valueError "Cannot serialize empty array."))
    ∧ (CSVSerializer.serialize (.str "") = .ok (.text ""))
    ∧ (JSONSerializer.serialize (.list []) = .ok (.text "[]"))
    ∧ (JSONSerializer.serialize (.dict []) = .ok (.text ("\x7b" ++ "\x7d"))) := by
  refine ⟨by decide, by decide, by decide, csv_serialize_empty_ndarray, fun dt => rfl,
    fun dt => numpy_serialize_empty_ndarray dt, by decide, by decide, by decide⟩

/-- C1 counterexample: the structured-text encoder returns the payload
`"[]"` for the empty list instead of rejecting it. -/
theorem claim_C1_counterexample :
    JSONSerializer.serialize (.list []) = .ok (.text "[]") := by decide

/-- C1 witness: the amended theorem at a concrete zero-size array. -/
theorem claim_C1_witness :
    CSVSerializer.serialize (.ndarray { dtype := .int64, shape := [0], data := [] })
      = .error (.valueError "Cannot serialize empty array") :=
  claim_C1.2.2.2.1 { dtype := .int64, shape := [0], data := [] } (by decide)

/-- C2 (as amended): for a non-stream scalar with no length (an int), the
tabular encoder's `serialize` raises a `TypeError` from the unconditional
`len(data)` in its multi-row classification — not the unable-to-handle
`ValueError`; that `ValueError` lives in `_serialize_row`, which such a
value only reaches as a row inside a multi-row input. -/
theorem claim_C2 : ∀ i : Int,
    CSVSerializer.serialize (.int i) = .error (.typeError "object of type int has no len()")
    ∧ CSVSerializer.serialize_row (.int i)
      = .error (.valueError "Unable to handle input format: int") := by
  intro i
  exact ⟨rfl, rfl⟩

/-- C2 counterexample: at the int input 5, `serialize` raises the
`TypeError` from `len`, not the claimed unable-to-handle `ValueError`. -/
theorem claim_C2_counterexample :
    CSVSerializer.serialize (.int 5) = .error (.typeError "object of type int has no len()")
    ∧ CSVSerializer.serialize (.int 5)
      ≠ .error (.valueError "Unable to handle input format: int") := by
  constructor
  · decide
  · decide

/-- C3: for every well-formed non-empty native array, the binary encoder
returns exactly the `.npy` bytes of the array, and the standard
binary-array-format reader decodes those bytes back to the same array —
same dtype, same shape, same element data. -/
theorem claim_C3 (a : NDArr) (hwf : a.WF) (hne : 0 < a.size) :
    (∀ dt : Option Dtype, NumpySerializer.serialize ⟨dt⟩ (.ndarray a) = .ok (.raw (npySave a)))
    ∧ npyLoad (npySave a) = some a := by
  constructor
  · intro dt
    exact numpy_serialize_ndarray dt a (by omega)
  · exact npyLoad_npySave a hwf

set_option maxRecDepth 40000 in
/-- C3 witness: the round trip evaluated on a concrete 2-element array. -/
theorem claim_C3_witness :
    NDArr.WF { dtype := .int64, shape := [2], data := [1, 2] }
    ∧ npyLoad (npySave { dtype := .int64, shape := [2], data := [1, 2] })
      = some { dtype := .int64, shape := [2], data := [1, 2] } :=
  ⟨by decide, (claim_C3 { dtype := .int64, shape := [2], data := [1, 2] }
    (by decide) (by decide)).2⟩

/-- C4: a non-stream input that is mutable-sequence-like (supports
`__setitem__`, `__getitem__`, `__iter__`), has positive length, and whose
first element is itself iterable and indexable, is serialized as the
single-row encodings of its elements joined by single newlines, in order. -/
theorem claim_C4 (data e0 : PyVal) (n : Nat)
    (hread : hasRead data = false)
    (hset : hasSetitem data = true)
    (hget : hasGetitem data = true)
    (hit : hasIter data = true)
    (hlen : pyLen data = .ok n) (hn : 0 < n)
    (he0 : getItem0 data = .ok e0)
    (he0it : hasIter e0 = true) (he0get : hasGetitem e0 = true) :
    CSVSerializer.serialize data =
      (do
        let rows ← pyIterElems data
        let encs ← rows.mapM CSVSerializer.serialize_row
        Except.ok (.text (joinSep "\n" encs))) :=
  csv_serialize_multirow data e0 n hread hset hget hit hlen hn he0 he0it he0get

/-- C4 witness: the multi-row rule evaluated on `[[1, 2], [3, 4]]`. -/
theorem claim_C4_witness :
    CSVSerializer.serialize (.list [.list [.int 1, .int 2], .list [.int 3, .int 4]])
      = .ok (.text "1,2\n3,4") :=
  (claim_C4 (.list [.list [.int 1, .int 2], .list [.int 3, .int 4]])
    (.list [.int 1, .int 2]) 2 rfl rfl rfl rfl rfl (by decide) rfl rfl rfl).trans (by decide)

/-- C5: a non-empty flat sequence (list or tuple) of ints is serialized as
the comma-joined decimal strings of its elements, and the result contains
no carriage-return or newline character at all (so none trailing). -/
theorem claim_C5 (xs : List Int) (hne : xs ≠ []) :
    CSVSerializer.serialize (.list (xs.map .int)) = .ok (.text (joinSep "," (xs.map intStr)))
    ∧ CSVSerializer.serialize (.tuple (xs.map .int)) = .ok (.text (joinSep "," (xs.map intStr)))
    ∧ (∀ c ∈ (joinSep "," (xs.map intStr)).toList, (c == '\r' || c == '\n') = false) :=
  ⟨csv_serialize_flat_list xs hne, csv_serialize_flat_tuple xs hne,
    joinSep_comma_ints_not_crlf xs⟩

/-- C5 witness: `[1, 2, 3]` serializes to `"1,2,3"`. -/
theorem claim_C5_witness :
    CSVSerializer.serialize (.list [.int 1, .int 2, .int 3]) = .ok (.text "1,2,3") :=
  ((claim_C5 [1, 2, 3] (by decide)).1).trans (by decide)

/-- C6: serializing a string-keyed mapping produces the JSON object text
whose members appear in the mapping's own order, each value first passed
through the direct-ndarray-to-nested-list conversion and otherwise encoded
unchanged. -/
theorem claim_C6 (l : List (String × PyVal)) :
    JSONSerializer.serialize (.dict l) =
      (do
        let parts ← (l.map fun kv => (kv.1, jsonConvertValue kv.2)).mapM (fun kv => do
          let s ← jsonDumpVal kv.2
          pure (jsonQuote kv.1 ++ ": " ++ s))
        Except.ok (.text ("\x7b" ++ joinSep ", " parts ++ "\x7d"))) := by
  rw [show JSONSerializer.serialize (.dict l)
      = (do
          let s ← jsonDumpVal (.dict (l.map fun kv => (kv.1, jsonConvertValue kv.2)))
          Except.ok (.text s)) from rfl]
  rw [show jsonDumpVal (.dict (l.map fun kv => (kv.1, jsonConvertValue kv.2)))
      = (do
          let parts ← jsonDumpEntries (l.map fun kv => (kv.1, jsonConvertValue kv.2))
          Except.ok ("\x7b" ++ joinSep ", " parts ++ "\x7d")) from rfl]
  rw [jsonDumpEntries_eq_mapM]
  cases hm : (l.map fun kv => (kv.1, jsonConvertValue kv.2)).mapM (fun kv => do
      let s ← jsonDumpVal kv.2
      pure (jsonQuote kv.1 ++ ": " ++ s)) with
  | error e => rfl
  | ok parts => rfl

/-- C7: a stream input (one exposing `read`) passes through all three
encoders unchanged, and none of them raises on it. -/
theorem claim_C7 : ∀ (bs : Bytes) (dt : Option Dtype),
    CSVSerializer.serialize (.stream bs) = .ok (.raw bs)
    ∧ NumpySerializer.serialize ⟨dt⟩ (.stream bs) = .ok (.raw bs)
    ∧ JSONSerializer.serialize (.stream bs) = .ok (.raw bs) := by
  intro bs dt
  exact ⟨rfl, rfl, rfl⟩

/-- C8: the tabular row serializer raises the empty-input `ValueError` for
every non-string row of length zero; the binary encoder raises it for the
empty list and for zero-size arrays; and the binary encoder's fallback path
applies no emptiness check — an empty tuple and an int scalar both encode
successfully through `np.array`. -/
theorem claim_C8 :
    (∀ d : PyVal, (∀ s, d ≠ .str s) → pyLen d = .ok 0 →
        CSVSerializer.serialize_row d = .error (.valueError "Cannot serialize empty array"))
    ∧ (∀ dt : Option Dtype,
        NumpySerializer.serialize ⟨dt⟩ (.list []) = .error (.valueError "Cannot serialize empty array."))
    ∧ (∀ dt : Option Dtype, ∀ a : NDArr, a.size = 0 →
        NumpySerializer.serialize ⟨dt⟩ (.ndarray a) = .error (.valueError "Cannot serialize empty array."))
    ∧ (∀ dt : Option Dtype,
        NumpySerializer.serialize ⟨dt⟩ (.tuple [])
          = .ok (.raw (npySave { dtype := .float64, shape := [0], data := [] })))
    ∧ (∀ dt : Option Dtype, ∀ i : Int, -(2 ^ 63) ≤ i → i < 2 ^ 63 →
        NumpySerializer.serialize ⟨dt⟩ (.int i)
          = .ok (.raw (npySave { dtype := .int64, shape := [], data := [toPattern 64 i] }))) := by
  refine ⟨serialize_row_len_zero, fun dt => rfl, fun dt => numpy_serialize_empty_ndarray dt,
    fun dt => rfl, numpy_serialize_scalar_int⟩

set_option maxRecDepth 40000 in
/-- C8 witness: the empty list row, and the fallback encoding of 5. -/
theorem claim_C8_witness :
    CSVSerializer.serialize_row (.list []) = .error (.valueError "Cannot serialize empty array")
    ∧ NumpySerializer.serialize ⟨none⟩ (.int 5)
      = .ok (.raw (npySave { dtype := .int64, shape := [], data := [toPattern 64 5] })) :=
  ⟨claim_C8.1 (.list []) (fun s h => PyVal.noConfusion h) (by decide),
    claim_C8.2.2.2.2 none 5 (by decide) (by decide)⟩

/-- C9: the three content-type constants are exactly the strings the spec
fixes; each is a class-level constant taking no input. -/
theorem claim_C9 :
    CSVSerializer.CONTENT_TYPE = "text/csv"
    ∧ NumpySerializer.CONTENT_TYPE = "application/x-npy"
    ∧ JSONSerializer.CONTENT_TYPE = "application/json" :=
  ⟨rfl, rfl, rfl⟩

/-- C10: a native array nested deeper than a direct dict value (here:
anywhere inside a non-ndarray value) is not converted, and serializing the
mapping raises the propagated not-serializable error instead of returning a
payload. -/
theorem claim_C10 (m : List (String × PyVal)) (k : String) (v : PyVal)
    (hm : (k, v) ∈ m) (harr : containsArr v = true) (hnd : ∀ a, v ≠ .ndarray a) :
    ∃ e, JSONSerializer.serialize (.dict m) = Except.error e :=
  json_serialize_dict_error_of_nested_array m k v hm harr hnd

/-- C10 witness: an array inside a list value makes `serialize` raise. -/
theorem claim_C10_witness :
    ∃ e, JSONSerializer.serialize
      (.dict [("a", .list [.ndarray { dtype := .int64, shape := [1], data := [5] }])])
      = Except.error e :=
  claim_C10 [("a", .list [.ndarray { dtype := .int64, shape := [1], data := [5] }])]
    "a" (.list [.ndarray { dtype := .int64, shape := [1], data := [5] }])
    (by simp) (by decide) (fun a h => PyVal.noConfusion h)

end Serializers
